import Mathlib

/-!
Verification of the job-search-api aggregation core against its specification.

The Python sources under `app/` are shallowly embedded:
* `app/scoring.py`  : `extract_yoe`, `detect_visa_sponsorship`,
  `extract_salary_currency`, `calculate_match_score`, `enhance_job_with_metadata`.
* `app/cache.py`    : `_make_key`, `TTLCache.get`, `TTLCache.set`.
* `app/scraper.py`  : the merge phase of `scrape_all` and the per-entry
  normalization of `scrape_weworkremotely`.

Modelling conventions:
* Python strings are Lean `String`s; `str.lower()` is the per-character
  ASCII case map `pyLower` (exact for every string the embedded code
  handles).
* Python `re.search` with the small fixed regexes of `scoring.py` is
  implemented by hand-rolled matchers on `List Char` that reproduce
  leftmost-match semantics and the backtracking behaviour of those concrete
  patterns (greedy sub-matches are used exactly where backtracking provably
  cannot change the outcome; this is argued in comments at each matcher).
* Python ints are `Nat` (all values handled are non-negative), float salary
  amounts are `ℚ` (all arithmetic involved is exact on these digit strings),
  and `time.monotonic()` instants are `Int`.
* Match scores are `Nat`: every addend of `calculate_match_score` is a
  non-negative integer literal, so the Python float arithmetic is exact.
-/

/-- Python `needle in haystack` on lists of characters:
`true` iff `needle` occurs contiguously inside `hay`. -/
def inChars (needle : List Char) : List Char → Bool
  | [] => needle.isPrefixOf ([] : List Char)
  | c :: rest => needle.isPrefixOf (c :: rest) || inChars needle rest

/-- Python `str.lower()`, as a character list (ASCII case mapping, which is
exact for every string the embedded code handles). -/
def pyLower (s : String) : List Char :=
  s.toList.map Char.toLower

/-- Python `needle in hay` where `hay` is an already-lowercased text. -/
def strIn (needle : String) (hay : List Char) : Bool :=
  inChars needle.toList hay

/-! ## app/scoring.py : keyword tables -/

/-- `TIER_1_ROLES` from `app/scoring.py`. -/
def TIER_1_ROLES : List String :=
  ["data analyst", "senior data analyst", "senior analyst", "business analyst",
   "product analyst", "decision scientist", "bi developer", "analytics engineer",
   "bi analyst", "financial analyst", "marketing analyst", "operations analyst"]

/-- `TIER_2_ROLES` from `app/scoring.py`. -/
def TIER_2_ROLES : List String :=
  ["junior data scientist", "associate data scientist", "data scientist",
   "ml engineer", "machine learning engineer", "junior ml engineer",
   "associate ml engineer", "junior data engineer", "associate data engineer"]

/-- `SKILL_KEYWORDS` from `app/scoring.py`. -/
def SKILL_KEYWORDS : List String :=
  ["python", "sql", "tableau", "power bi", "looker", "visualization",
   "machine learning", "ml modeling", "statistics", "a/b testing",
   "experimentation", "analytics", "reporting", "dashboards", "etl",
   "data pipeline", "pandas", "numpy", "scikit-learn", "tensorflow",
   "pytorch", "r language", "excel", "spreadsheet"]

/-- `VISA_KEYWORDS` from `app/scoring.py`. -/
def VISA_KEYWORDS : List String :=
  ["visa sponsorship", "sponsored visa", "visa sponsor", "relocation support",
   "relocation assistance", "work visa", "sponsor visa", "visa available",
   "will sponsor", "can sponsor", "sponsorship available"]

/-- `REMOTE_KEYWORDS` from `app/scoring.py`. -/
def REMOTE_KEYWORDS : List String :=
  ["remote", "work from home", "wfh", "distributed", "anywhere"]

/-- `INDIA_REMOTE_KEYWORDS` from `app/scoring.py`. -/
def INDIA_REMOTE_KEYWORDS : List String :=
  ["remote india", "india remote", "work from india"]

/-- `INDIAN_CITIES` from `app/scoring.py`. -/
def INDIAN_CITIES : List String :=
  ["pune", "hyderabad", "mumbai", "thane", "navi mumbai", "bangalore",
   "chennai", "delhi", "ncr", "gurgaon", "noida"]

/-! ## Regex matchers for the fixed patterns of `scoring.py`

`re.search` semantics: the match is at the leftmost start position at which
the (anchored) pattern can match; at one start position, alternations are
tried left to right and quantifiers greedily with backtracking.  For the
concrete patterns below, every `\d+` / `\s*` is followed by tokens that can
never consume a digit / whitespace character, so greedy maximal munch without
backtracking is exact; the only places where real backtracking matters
(`\d{1,3}` in the generic salary pattern and ordered alternations) are
implemented by explicit candidate lists in the regex's preference order. -/

/-- Numeric value of an ASCII digit. -/
def digitVal (c : Char) : Nat := c.toNat - 48

/-- Greedily consume `\d*`, accumulating the decimal value. -/
def readNatAux : List Char → Nat → Nat × List Char
  | c :: cs, acc => if c.isDigit then readNatAux cs (10 * acc + digitVal c) else (acc, c :: cs)
  | [], acc => (acc, [])

/-- `\d+` anchored at the head: at least one digit, greedy. -/
def readNat? (cs : List Char) : Option (Nat × List Char) :=
  match cs with
  | c :: _ => if c.isDigit then some (readNatAux cs 0) else none
  | [] => none

/-- `\s*`, greedy.  (Python `\s` also covers `\f`/`\v`, which do not occur in
the texts under study.) -/
def skipWs (cs : List Char) : List Char := cs.dropWhile Char.isWhitespace

/-- Membership in the character class `[-–—to]` used as separator. -/
def sepChar (c : Char) : Bool :=
  c = '-' || c = '–' || c = '—' || c = 't' || c = 'o'

/-- The trailing unit alternation `(?:years?|yrs?|yoe|experience)`: it is the
last token of each pattern using it, so only its satisfiability at the given
position matters. -/
def unitAt (cs : List Char) : Bool :=
  ["years", "year", "yrs", "yr", "yoe", "experience"].any
    (fun u => u.toList.isPrefixOf cs)

/-- `range_pattern = (\d+)\s*[-–—to]\s*(\d+)\s*(?:years?|yrs?|yoe|experience)`
anchored at the head of `cs`. -/
def rangePatternAt (cs : List Char) : Option (Nat × Nat) :=
  match readNat? cs with
  | none => none
  | some (a, r1) =>
    match skipWs r1 with
    | [] => none
    | c :: r3 =>
      if sepChar c then
        match readNat? (skipWs r3) with
        | none => none
        | some (b, r5) => if unitAt (skipWs r5) then some (a, b) else none
      else none

/-- Continuation `\s*(\d+)\s*(?:years?|...)` shared by the four alternatives of
`min_pattern`. -/
def minPatternCont (cs : List Char) : Option Nat :=
  match readNat? (skipWs cs) with
  | none => none
  | some (n, r1) => if unitAt (skipWs r1) then some n else none

/-- `min_pattern = (?:minimum|min|at least|atleast)\s*(\d+)\s*(?:years?|...)`
anchored at the head; the alternatives are tried in the regex's order. -/
def minPatternAt (cs : List Char) : Option Nat :=
  ["minimum", "min", "at least", "atleast"].findSome?
    (fun alt =>
      if alt.toList.isPrefixOf cs then minPatternCont (cs.drop alt.length) else none)

/-- `simple_range = (\d+)\s*[-–—to]\s*(\d+)` anchored at the head. -/
def simpleRangeAt (cs : List Char) : Option (Nat × Nat) :=
  match readNat? cs with
  | none => none
  | some (a, r1) =>
    match skipWs r1 with
    | [] => none
    | c :: r3 =>
      if sepChar c then
        match readNat? (skipWs r3) with
        | none => none
        | some (b, _) => some (a, b)
      else none

/-- `plus_pattern = (\d+)\+\s*(?:years?|yrs?|yoe|experience)` anchored at the
head. -/
def plusPatternAt (cs : List Char) : Option Nat :=
  match readNat? cs with
  | none => none
  | some (a, r1) =>
    match r1 with
    | '+' :: r2 => if unitAt (skipWs r2) then some a else none
    | _ => none

/-- `re.search`: try the anchored matcher at every start position, leftmost
success wins. -/
def searchFirst (p : List Char → Option α) : List Char → Option α
  | [] => p []
  | c :: cs =>
    match p (c :: cs) with
    | some r => some r
    | none => searchFirst p cs

/-- `extract_yoe` from `app/scoring.py`: ordered patterns against the
lowercased text, first match wins; the unit-less range is accepted only when
both values are ≤ 10, otherwise control falls through to `plus_pattern`. -/
def extract_yoe (text : String) : Option Nat × Option Nat :=
  let cs := pyLower text
  match searchFirst rangePatternAt cs with
  | some (a, b) => (some a, some b)
  | none =>
    match searchFirst minPatternAt cs with
    | some n => (some n, none)
    | none =>
      match searchFirst simpleRangeAt cs with
      | some (a, b) =>
        if a ≤ 10 && b ≤ 10 then (some a, some b)
        else
          match searchFirst plusPatternAt cs with
          | some n => (some n, none)
          | none => (none, none)
      | none =>
        match searchFirst plusPatternAt cs with
        | some n => (some n, none)
        | none => (none, none)

/-- `detect_visa_sponsorship` from `app/scoring.py`. -/
def detect_visa_sponsorship (text : String) : Bool :=
  VISA_KEYWORDS.any (fun kw => strIn kw (pyLower text))

/-! ## `extract_salary_currency`

Amounts are carried in `ℚ`.  The Python code computes them as `float`s; on
the decimal digit strings involved the two agree up to float rounding, and no
claim under study depends on the numeric values — only the currency component
and the `> 1000` guard shape matter. -/

/-- `currency_map` from `app/scoring.py`, in insertion order (Python dicts
preserve insertion order, and the detection loop takes the first hit). -/
def currency_map : List (String × String) :=
  [("$", "USD"), ("usd", "USD"), ("dollar", "USD"),
   ("₹", "INR"), ("rs", "INR"), ("inr", "INR"), ("rupee", "INR"),
   ("lakh", "INR"), ("lpa", "INR"),
   ("£", "GBP"), ("gbp", "GBP"), ("pound", "GBP"),
   ("€", "EUR"), ("eur", "EUR"), ("euro", "EUR"),
   ("sgd", "SGD"), ("singapore", "SGD"),
   ("aed", "AED"), ("dirham", "AED")]

/-- The currency-detection loop of `extract_salary_currency`: first table
entry whose symbol occurs in the lowercased text. -/
def detectCurrency (tl : List Char) : Option String :=
  (currency_map.find? (fun p => strIn p.1 tl)).map (fun p => p.2)

/-- Greedily consume `\d*` accumulating value and digit count
(used for fraction parts, where the number of digits fixes the scale). -/
def readDigitsCnt : List Char → Nat → Nat → Nat × Nat × List Char
  | c :: cs, acc, k =>
    if c.isDigit then readDigitsCnt cs (10 * acc + digitVal c) (k + 1)
    else (acc, k, c :: cs)
  | [], acc, k => (acc, k, [])

/-- `(\d+(?:\.\d+)?)` anchored at the head, as an exact rational.  The
optional fraction is taken greedily: if it is present but taking it made the
continuation fail, the non-fraction alternative leaves the continuation
looking at `'.'`, which none of the follow-up tokens (`\s*`, `k`, `l`, the
separator class, `\d`) can consume — so greedy is exact. -/
def readQ? (cs : List Char) : Option (ℚ × List Char) :=
  match readNat? cs with
  | none => none
  | some (n, r1) =>
    match r1 with
    | '.' :: r2 =>
      match r2 with
      | d :: _ =>
        if d.isDigit then
          match readDigitsCnt r2 0 0 with
          | (f, m, r3) => some ((n : ℚ) + (f : ℚ) / ((10 : ℚ) ^ m), r3)
        else some ((n : ℚ), '.' :: r2)
      | [] => some ((n : ℚ), '.' :: r2)
    | _ => some ((n : ℚ), r1)

/-- `\s*[-–—to]?\s*`: the separator char is consumed greedily when present;
skipping a present separator would leave the following `\s*(\d...)` looking at
a non-space non-digit character, so greedy is exact. -/
def skipSep (cs : List Char) : List Char :=
  let r := skipWs cs
  match r with
  | c :: t => if sepChar c then skipWs t else r
  | [] => r

/-- `k_pattern = (\d+(?:\.\d+)?)\s*k\s*[-–—to]?\s*(\d+(?:\.\d+)?)\s*k`
anchored at the head. -/
def kPatternAt (cs : List Char) : Option (ℚ × ℚ) :=
  match readQ? cs with
  | none => none
  | some (v1, r1) =>
    match skipWs r1 with
    | 'k' :: r2 =>
      match readQ? (skipSep r2) with
      | none => none
      | some (v2, r3) =>
        match skipWs r3 with
        | 'k' :: _ => some (v1, v2)
        | _ => none
    | _ => none

/-- `l_pattern = (\d+(?:\.\d+)?)\s*l\s*[-–—to]?\s*(\d+(?:\.\d+)?)\s*l`
anchored at the head (Lakh notation). -/
def lPatternAt (cs : List Char) : Option (ℚ × ℚ) :=
  match readQ? cs with
  | none => none
  | some (v1, r1) =>
    match skipWs r1 with
    | 'l' :: r2 =>
      match readQ? (skipSep r2) with
      | none => none
      | some (v2, r3) =>
        match skipWs r3 with
        | 'l' :: _ => some (v1, v2)
        | _ => none
    | _ => none

/-- `(?:,\d{3})*` after an exhausted leading digit run, greedy: each step
consumes a comma followed by exactly three digits and scales the value.
Backtracking to fewer groups always leaves the continuation looking at `','`,
which no follow-up token consumes — so greedy is exact. -/
def readCommaGroups : List Char → Nat → Nat × List Char
  | ',' :: d1 :: d2 :: d3 :: t, acc =>
    if d1.isDigit && d2.isDigit && d3.isDigit then
      readCommaGroups t (acc * 1000 + 100 * digitVal d1 + 10 * digitVal d2 + digitVal d3)
    else (acc, ',' :: d1 :: d2 :: d3 :: t)
  | cs, acc => (acc, cs)

/-- The candidates for `(\d{1,3}(?:,\d{3})*(?:\.\d+)?)` anchored at the head,
in the regex engine's preference order: the longest leading digit take first
(at most 3), each extended greedily by comma groups and fraction exactly when
the take exhausts the leading digit run (otherwise the next character is a
digit and neither extension can start).  Backtracking inside the extensions
can never rescue a failed continuation (it leaves `','` or `'.'` in front),
so only the digit-take length is enumerated. -/
def numGroupCands (cs : List Char) : List (ℚ × List Char) :=
  let run := (cs.takeWhile Char.isDigit).length
  let mk : Nat → ℚ × List Char := fun k =>
    let v := (readNatAux (cs.take k) 0).1
    if k = run then
      match readCommaGroups (cs.drop k) v with
      | (v1, r1) =>
        match readQ?Frac r1 v1 with
        | (q, r2) => (q, r2)
    else ((v : ℚ), cs.drop k)
  ((List.range (min 3 run)).map (fun i => min 3 run - i)).map mk
where
  /-- optional `(?:\.\d+)?` on top of an integer value -/
  readQ?Frac (r : List Char) (v : Nat) : ℚ × List Char :=
    match r with
    | '.' :: d :: t =>
      if d.isDigit then
        match readDigitsCnt (d :: t) 0 0 with
        | (f, m, r3) => ((v : ℚ) + (f : ℚ) / ((10 : ℚ) ^ m), r3)
      else ((v : ℚ), '.' :: d :: t)
    | _ => ((v : ℚ), r)

/-- Second capture group of `num_pattern`: same shape, but it is the final
token of the pattern, so plain greedy (the first candidate) is exact. -/
def numGroup2 (cs : List Char) : Option (ℚ × List Char) :=
  (numGroupCands cs).head?

/-- `num_pattern =
`(\d{1,3}(?:,\d{3})*(?:\.\d+)?)\s*[-–—to]?\s*(\d{1,3}(?:,\d{3})*(?:\.\d+)?)`
anchored at the head: try the first-group candidates in preference order,
each followed by the optional separator and the second group. -/
def numPatternAt (cs : List Char) : Option (ℚ × ℚ) :=
  (numGroupCands cs).findSome? (fun c =>
    match numGroup2 (skipSep c.2) with
    | some (v2, _) => some (c.1, v2)
    | none => none)

/-- `extract_salary_currency` from `app/scoring.py`: detect a currency from
the fixed table (first hit), then try the k-suffix, Lakh and generic numeric
range patterns in order; note the `or "USD"` / `or "INR"` defaults on the
first two and the `> 1000` guard on the third. -/
def extract_salary_currency (text : String) :
    Option ℚ × Option ℚ × Option String :=
  let tl := pyLower text
  let detected := detectCurrency tl
  match searchFirst kPatternAt tl with
  | some (a, b) => (some (a * 1000), some (b * 1000), some (detected.getD "USD"))
  | none =>
    match searchFirst lPatternAt tl with
    | some (a, b) => (some (a * 100000), some (b * 100000), some (detected.getD "INR"))
    | none =>
      match searchFirst numPatternAt tl with
      | some (a, b) =>
        if 1000 < a && 1000 < b then (some a, some b, detected)
        else (none, none, detected)
      | none => (none, none, detected)

/-! ## `calculate_match_score` -/

/-- `calculate_match_score` from `app/scoring.py`.  All addends are integer
literals, and the final value is `min(100.0, max(0.0, score))`; the Python
float arithmetic is exact on these values, so `Nat` is a faithful carrier. -/
def calculate_match_score (job_title job_description job_location : String)
    (job_yoe_min job_yoe_max : Option Nat) (target_yoe : Nat) : Nat :=
  let text := pyLower (job_title ++ " " ++ job_description ++ " " ++ job_location)
  let title_lower := pyLower job_title
  let roleScore : Nat :=
    if TIER_1_ROLES.any (fun role => strIn role title_lower) then 40
    else if TIER_2_ROLES.any (fun role => strIn role title_lower) then 30
    else if SKILL_KEYWORDS.any (fun skill => strIn skill text) then 20
    else 0
  let location_lower := pyLower job_location
  let locScore : Nat :=
    if REMOTE_KEYWORDS.any (fun kw => strIn kw location_lower) then 30
    else if INDIA_REMOTE_KEYWORDS.any (fun kw => strIn kw location_lower) then 25
    else if INDIAN_CITIES.any (fun city => strIn city location_lower) then 20
    else 10
  let yoeScore : Nat :=
    match job_yoe_min, job_yoe_max with
    | some ymin, some ymax =>
      if ymin ≤ target_yoe && target_yoe ≤ ymax then 30
      else if ymin ≤ target_yoe + 1 && target_yoe + 1 ≤ ymax then 20
      else if 5 ≤ ymax then 0
      else 10
    | some ymin, none =>
      if ymin ≤ target_yoe then
        if 5 ≤ ymin then 0
        else if ymin ≤ target_yoe + 1 then 25
        else 10
      else 0
    | none, some ymax =>
      if target_yoe ≤ ymax then
        if 5 ≤ ymax then 0
        else 25
      else 0
    | none, none => 15
  min 100 (max 0 (roleScore + locScore + yoeScore))

/-! ## Claims C5, C6, C7 -/

/-- C5: every input combination yields a match score in [0,100], and a tier-1
title with a remote location and both experience bounds containing the target
scores exactly 100 = 40+30+30. -/
theorem calculate_match_score_range_and_max :
    (∀ (t d l : String) (ymin ymax : Option Nat) (tgt : Nat),
        0 ≤ calculate_match_score t d l ymin ymax tgt ∧
        calculate_match_score t d l ymin ymax tgt ≤ 100) ∧
    calculate_match_score "data analyst" "" "remote" (some 1) (some 3) 2 = 100 := by
  refine ⟨fun t d l ymin ymax tgt => ⟨Nat.zero_le _, ?_⟩, by decide⟩
  exact Nat.min_le_left _ _

/-- C6: the spec's experience-parsing examples — "3-5 years experience
required" gives (3,5), "minimum 2 years" gives (2,None), "5+ years" gives
(5,None), and the unit-less "15-20" (both values > 10) gives (None,None). -/
theorem extract_yoe_spec_examples :
    extract_yoe "3-5 years experience required" = (some 3, some 5) ∧
    extract_yoe "minimum 2 years" = (some 2, none) ∧
    extract_yoe "5+ years" = (some 5, none) ∧
    extract_yoe "15-20" = (none, none) := by
  refine ⟨by decide, by decide, by decide, by decide⟩

/-- C7 (the code violates the claim): on "7-3 years" `extract_yoe` returns the
contradictory pair (7,3) with min > max; nothing in the code discards it. -/
theorem extract_yoe_reversed_range_kept :
    extract_yoe "7-3 years" = (some 7, some 3) ∧ ¬ (7 : Nat) ≤ 3 := by
  refine ⟨by decide, by decide⟩

/-! ## Claim C8 -/

/-- C8 counterexample: "50k-70k" contains no symbol or code from the currency
table, yet `extract_salary_currency` reports the currency as "USD" (the
k-suffix pattern's `or "USD"` default), not None as the claim states. -/
theorem extract_salary_currency_k_defaults_usd :
    detectCurrency (pyLower "50k-70k") = none ∧
    (extract_salary_currency "50k-70k").1.isSome = true ∧
    (extract_salary_currency "50k-70k").2.1.isSome = true ∧
    (extract_salary_currency "50k-70k").2.2 = some "USD" := by
  refine ⟨by decide, by decide, by decide, by decide⟩

/-- C8 amended: when no currency symbol or code from the table occurs in the
text, the currency component is "USD" if the k-suffix pattern matched, "INR"
if (otherwise) the Lakh pattern matched, and None otherwise — in particular
None whenever the amounts come from the generic numeric-range pattern or no
amounts are found. -/
theorem extract_salary_currency_no_table_hit (text : String)
    (h : detectCurrency (pyLower text) = none) :
    (extract_salary_currency text).2.2 =
      (if (searchFirst kPatternAt (pyLower text)).isSome then some "USD"
       else if (searchFirst lPatternAt (pyLower text)).isSome then some "INR"
       else none) := by
  simp only [extract_salary_currency]
  cases hk : searchFirst kPatternAt (pyLower text) with
  | some v => simp [hk, h]
  | none =>
    cases hl : searchFirst lPatternAt (pyLower text) with
    | some v => simp [hk, hl, h]
    | none =>
      cases hn : searchFirst numPatternAt (pyLower text) with
      | some v => simp [hk, hl, hn, h]; split <;> simp
      | none => simp [hk, hl, hn, h]

/-- C8 amended, instantiated: the empty text has no table hit and no amount
match, and its currency component is None. -/
theorem extract_salary_currency_no_table_hit_witness :
    (extract_salary_currency "").2.2 = none := by
  have h : detectCurrency (pyLower "") = none := by decide
  have hmain := extract_salary_currency_no_table_hit "" h
  rw [hmain]
  decide

/-! ## app/cache.py : `_make_key`

`_make_key` serializes the parameter dict — items sorted (by key; dict keys
are unique, so Python's tuple comparison never reaches the values), `None`
values dropped — to JSON and returns `prefix + ":" + sha256(...)[:32]`.
The sha-256 truncation is a fixed deterministic encoding of the serialized
string; `sha256hex32` models it as the identity, so equality of modelled keys
corresponds to equality of the data actually hashed (hash collisions are the
only behaviour this abstracts away). -/

/-- A JSON-serializable parameter value (the shapes `cache.py` receives:
strings, ints, bools). -/
inductive PValue where
  | str (s : String)
  | int (n : Int)
  | bool (b : Bool)
deriving DecidableEq

/-- JSON string escaping as `json.dumps` performs it on the ASCII texts in
scope (quote, backslash and the common control characters; `ensure_ascii`
escaping of non-ASCII codepoints is not modelled and not exercised). -/
def jsonEscapeChar (c : Char) : List Char :=
  if c = '"' then ['\\', '"']
  else if c = '\\' then ['\\', '\\']
  else if c = '\n' then ['\\', 'n']
  else if c = '\t' then ['\\', 't']
  else if c = '\r' then ['\\', 'r']
  else [c]

/-- Render a JSON string literal. -/
def jsonStr (s : String) : String :=
  String.mk ('"' :: s.toList.foldr (fun c acc => jsonEscapeChar c ++ acc) ['"'])

/-- Render one JSON value. -/
def jsonVal : Option PValue → String
  | some (.str s) => jsonStr s
  | some (.int n) => toString n
  | some (.bool b) => if b then "true" else "false"
  | none => "null"

/-- `", "`-joined concatenation. -/
def joinSep (sep : String) : List String → String
  | [] => ""
  | [x] => x
  | x :: y :: rest => x ++ sep ++ joinSep sep (y :: rest)

/-- `json.dumps` of an ordered string-keyed object with the default
separators `", "` and `": "`. -/
def jsonDumps (entries : List (String × Option PValue)) : String :=
  "\x7b" ++ joinSep ", " (entries.map (fun p => jsonStr p.1 ++ ": " ++ jsonVal p.2)) ++ "\x7d"

/-- Key order used by `sorted(params.items())` (keys are unique, so sorting
by key alone agrees with Python's tuple order). -/
def keyLe (a b : String × Option PValue) : Prop := a.1 ≤ b.1

instance : DecidableRel keyLe := fun a b => inferInstanceAs (Decidable (a.1 ≤ b.1))

instance : IsTotal (String × Option PValue) keyLe := ⟨fun a b => le_total a.1 b.1⟩

instance : IsTrans (String × Option PValue) keyLe := ⟨fun _ _ _ h1 h2 => le_trans h1 h2⟩

/-- The strict version of `keyLe`, used to identify sorted nodup-key lists. -/
def keyLt (a b : String × Option PValue) : Prop := a.1 < b.1

instance : IsAntisymm (String × Option PValue) keyLt :=
  ⟨fun _ _ h1 h2 => absurd (lt_trans h1 h2) (lt_irrefl _)⟩

/-- The sha-256/truncate step of `_make_key`, modelled as the identity (see
the section comment). -/
def sha256hex32 (s : String) : String := s

/-- `_make_key` from `app/cache.py`: sort the items by key, drop entries
whose value is `None`, serialize, hash, and prepend the prefix. -/
def make_key (pre : String) (params : List (String × Option PValue)) : String :=
  pre ++ ":" ++
    sha256hex32 (jsonDumps ((List.insertionSort keyLe params).filter (fun p => p.2.isSome)))

/-- Python dicts have unique keys: pairwise distinct first components. -/
def NodupKeys (l : List (String × Option PValue)) : Prop :=
  l.Pairwise (fun a b => a.1 ≠ b.1)

instance (l : List (String × Option PValue)) : Decidable (NodupKeys l) :=
  inferInstanceAs (Decidable (l.Pairwise _))

/-- The spec's normalization, written from the spec's words: drop every entry
whose value is None *or empty*; used to compare the spec's claim with the
code's `None`-only filter. -/
def specDropNoneOrEmpty (l : List (String × Option PValue)) : List (String × Option PValue) :=
  l.filter (fun p =>
    match p.2 with
    | none => false
    | some (.str s) => !s.isEmpty
    | some _ => true)

/-! ## Claim C4 -/

/-- C4 counterexample: `{"q": ""}` and `{}` contain the same entries after
dropping None-or-empty values, yet `_make_key` (which drops only `None`)
hashes different serializations and produces different keys. -/
theorem make_key_empty_value_distinguished :
    specDropNoneOrEmpty [("q", some (PValue.str ""))] = specDropNoneOrEmpty [] ∧
    make_key "jobspy" [("q", some (PValue.str ""))] ≠ make_key "jobspy" [] := by
  refine ⟨by decide, by decide⟩

/-- C4 amended: two parameter dicts with the same set of key/value pairs
after dropping every entry whose value is None (empty values are kept, not
dropped) produce identical cache keys regardless of parameter order. -/
theorem make_key_order_independent (pre : String)
    (p1 p2 : List (String × Option PValue))
    (h1 : NodupKeys p1) (h2 : NodupKeys p2)
    (hperm : (p1.filter (fun p => p.2.isSome)).Perm (p2.filter (fun p => p.2.isSome))) :
    make_key pre p1 = make_key pre p2 := by
  unfold make_key sha256hex32
  have key : (List.insertionSort keyLe p1).filter (fun p => p.2.isSome) =
      (List.insertionSort keyLe p2).filter (fun p => p.2.isSome) := by
    have sort1 := List.perm_insertionSort keyLe p1
    have sort2 := List.perm_insertionSort keyLe p2
    have hpermAB : ((List.insertionSort keyLe p1).filter (fun p => p.2.isSome)).Perm
        ((List.insertionSort keyLe p2).filter (fun p => p.2.isSome)) := by
      exact ((sort1.filter _).trans hperm).trans (sort2.filter _).symm
    have hsub1 := List.filter_sublist (p := fun p => p.2.isSome) (List.insertionSort keyLe p1)
    have hsub2 := List.filter_sublist (p := fun p => p.2.isSome) (List.insertionSort keyLe p2)
    have hle1 : ((List.insertionSort keyLe p1).filter (fun p => p.2.isSome)).Pairwise keyLe :=
      (List.sorted_insertionSort keyLe p1).sublist hsub1
    have hle2 : ((List.insertionSort keyLe p2).filter (fun p => p.2.isSome)).Pairwise keyLe :=
      (List.sorted_insertionSort keyLe p2).sublist hsub2
    have hnodupSym : Symmetric (fun a b : String × Option PValue => a.1 ≠ b.1) :=
      fun _ _ h => h.symm
    have hne1 : ((List.insertionSort keyLe p1).filter (fun p => p.2.isSome)).Pairwise
        (fun a b => a.1 ≠ b.1) :=
      (((List.Perm.pairwise_iff (fun h => h.symm) sort1).mpr h1).sublist hsub1)
    have hne2 : ((List.insertionSort keyLe p2).filter (fun p => p.2.isSome)).Pairwise
        (fun a b => a.1 ≠ b.1) :=
      (((List.Perm.pairwise_iff (fun h => h.symm) sort2).mpr h2).sublist hsub2)
    have hlt1 : ((List.insertionSort keyLe p1).filter (fun p => p.2.isSome)).Pairwise keyLt :=
      (hle1.and hne1).imp (fun h => lt_of_le_of_ne h.1 h.2)
    have hlt2 : ((List.insertionSort keyLe p2).filter (fun p => p.2.isSome)).Pairwise keyLt :=
      (hle2.and hne2).imp (fun h => lt_of_le_of_ne h.1 h.2)
    exact List.eq_of_perm_of_sorted hpermAB hlt1 hlt2
  rw [key]

/-- C4 amended, instantiated at the spec's example: the parameters
`q="data analyst", days=3, limit=50` given in two different orders hash to
the same cache key. -/
theorem make_key_order_independent_witness :
    NodupKeys [("q", some (PValue.str "data analyst")), ("days", some (PValue.int 3)),
               ("limit", some (PValue.int 50))] ∧
    NodupKeys [("limit", some (PValue.int 50)), ("days", some (PValue.int 3)),
               ("q", some (PValue.str "data analyst"))] ∧
    make_key "jobspy"
        [("q", some (PValue.str "data analyst")), ("days", some (PValue.int 3)),
         ("limit", some (PValue.int 50))] =
      make_key "jobspy"
        [("limit", some (PValue.int 50)), ("days", some (PValue.int 3)),
         ("q", some (PValue.str "data analyst"))] := by
  refine ⟨by decide, by decide, ?_⟩
  exact make_key_order_independent "jobspy" _ _ (by decide) (by decide) (by decide)

/-! ## app/cache.py : `TTLCache`

The `OrderedDict` store is a list of `(key, value, expiry)` triples, front =
oldest position.  `time.monotonic()` instants are `Int`.  Python's
`store[key] = ...` followed by `move_to_end(key)` is, as a whole, "remove the
key's entry (if any) and append the new entry at the back", which is how
`set` is written below; `move_to_end` inside `get` likewise removes and
re-appends the found entry. -/

/-- The cache state: TTL, capacity bound, and the ordered store. -/
structure TTLCache (α : Type) where
  ttl : Int
  max_entries : Nat
  store : List (String × α × Int)

/-- A fresh cache (`__init__`). -/
def TTLCache.init (α : Type) (ttl : Int) (max_entries : Nat) : TTLCache α :=
  ⟨ttl, max_entries, []⟩

/-- `TTLCache.get`: absent key gives None; an expired entry is deleted and
treated as absent; a hit moves the entry to the back (recently used) and
returns its value. -/
def TTLCache.get (s : TTLCache α) (key : String) (now : Int) :
    Option α × TTLCache α :=
  match s.store.find? (fun e => e.1 == key) with
  | none => (none, s)
  | some e =>
    if e.2.2 ≤ now then
      (none, { s with store := s.store.eraseP (fun x => x.1 == key) })
    else
      (some e.2.1,
       { s with store := s.store.eraseP (fun x => x.1 == key) ++ [e] })

/-- The eviction loop of `TTLCache.set`:
`while len(store) >= max_entries and store: popitem(last=False)`. -/
def evictWhile (maxE : Nat) : List (String × α × Int) → List (String × α × Int)
  | [] => []
  | x :: xs => if maxE ≤ xs.length + 1 then evictWhile maxE xs else x :: xs

/-- `TTLCache.set`: evict oldest entries while at capacity, then store the
value with expiry `now + ttl` at the back. -/
def TTLCache.set (s : TTLCache α) (key : String) (value : α) (now : Int) :
    TTLCache α :=
  { s with store :=
      (evictWhile s.max_entries s.store).eraseP (fun x => x.1 == key) ++
        [(key, value, now + s.ttl)] }

/-- One cache operation with its `time.monotonic()` instant. -/
inductive CacheOp (α : Type) where
  | get (key : String) (now : Int)
  | set (key : String) (value : α) (now : Int)

/-- Apply one operation to the cache state. -/
def applyOp (s : TTLCache α) : CacheOp α → TTLCache α
  | .get key now => (s.get key now).2
  | .set key value now => s.set key value now

/-- Run a sequence of interleaved operations. -/
def runOps (s : TTLCache α) (ops : List (CacheOp α)) : TTLCache α :=
  ops.foldl applyOp s

/-! ## Claim C10 : the store never exceeds `max_entries` -/

/-- The eviction loop leaves at most `max_entries - 1` entries (for a
positive bound). -/
theorem evictWhile_length_le (maxE : Nat) (_h : 1 ≤ maxE)
    (l : List (String × α × Int)) : (evictWhile maxE l).length ≤ maxE - 1 := by
  induction l with
  | nil => simp [evictWhile]
  | cons x xs ih =>
    rw [evictWhile]
    split
    · exact ih
    · next hcond =>
      have hlt : (x :: xs).length < maxE := by
        simpa [List.length_cons, Nat.lt_iff_add_one_le, Nat.not_le] using
          Nat.lt_of_not_le hcond
      exact Nat.le_sub_one_of_lt hlt

/-- `set` leaves the store within the capacity bound. -/
theorem set_store_length_le (s : TTLCache α) (h : 1 ≤ s.max_entries)
    (key : String) (value : α) (now : Int) :
    ((s.set key value now).store).length ≤ s.max_entries := by
  unfold TTLCache.set
  simp only [List.length_append, List.length_cons, List.length_nil]
  have h1 : ((evictWhile s.max_entries s.store).eraseP (fun x => x.1 == key)).length ≤
      (evictWhile s.max_entries s.store).length :=
    List.length_eraseP_le _
  have h2 := evictWhile_length_le s.max_entries h s.store
  omega

/-- `get` never grows the store. -/
theorem get_store_length_le (s : TTLCache α) (key : String) (now : Int) :
    (((s.get key now).2).store).length ≤ s.store.length := by
  unfold TTLCache.get
  cases hfind : s.store.find? (fun e => e.1 == key) with
  | none => simp
  | some e =>
    have hmem : e ∈ s.store := List.mem_of_find?_eq_some hfind
    have hp := List.find?_some hfind
    have herase : (s.store.eraseP (fun x => x.1 == key)).length + 1 = s.store.length :=
      List.length_eraseP_add_one hmem hp
    dsimp only
    split
    · dsimp only
      have := List.length_eraseP_le (p := fun x : String × α × Int => x.1 == key) s.store
      omega
    · dsimp only
      rw [List.length_append]
      simp only [List.length_cons, List.length_nil]
      omega

/-- `get` never changes the capacity bound. -/
theorem get_max_entries (s : TTLCache α) (key : String) (now : Int) :
    (((s.get key now).2)).max_entries = s.max_entries := by
  unfold TTLCache.get
  cases s.store.find? (fun e => e.1 == key) with
  | none => rfl
  | some e =>
    by_cases h : e.2.2 ≤ now
    · simp [h]
    · simp [h]

/-- `set` never changes the capacity bound. -/
theorem set_max_entries (s : TTLCache α) (key : String) (value : α) (now : Int) :
    ((s.set key value now)).max_entries = s.max_entries := rfl

/-- C10: for every cache with `max_entries ≥ 1` and every finite sequence of
interleaved `get`/`set` operations started from a fresh cache, the store
never holds more than `max_entries` entries after an operation completes
(every prefix of an operation sequence is itself such a sequence). -/
theorem runOps_store_length_le (α : Type) (ttl : Int) (maxE : Nat)
    (h : 1 ≤ maxE) (ops : List (CacheOp α)) :
    ((runOps (TTLCache.init α ttl maxE) ops).store).length ≤ maxE := by
  have step : ∀ (s : TTLCache α) (op : CacheOp α),
      s.max_entries = maxE → s.store.length ≤ maxE →
      (applyOp s op).max_entries = maxE ∧ (applyOp s op).store.length ≤ maxE := by
    intro s op hmax hlen
    cases op with
    | get key now =>
      refine ⟨?_, ?_⟩
      · show (((s.get key now).2)).max_entries = maxE
        rw [get_max_entries, hmax]
      · exact le_trans (get_store_length_le s key now) hlen
    | set key value now =>
      refine ⟨?_, ?_⟩
      · show ((s.set key value now)).max_entries = maxE
        rw [set_max_entries, hmax]
      · show ((s.set key value now).store).length ≤ maxE
        have := set_store_length_le s (by omega) key value now
        omega
  have main : ∀ (ops : List (CacheOp α)) (s : TTLCache α),
      s.max_entries = maxE → s.store.length ≤ maxE →
      ((runOps s ops).store).length ≤ maxE := by
    intro ops
    induction ops with
    | nil => intro s _ hlen; simpa [runOps]
    | cons op rest ih =>
      intro s hmax hlen
      have hs := step s op hmax hlen
      simpa [runOps] using ih (applyOp s op) hs.1 hs.2
  exact main ops _ rfl (by simp [TTLCache.init])

/-- C10 instantiated: a fresh capacity-2 cache stays within bound across a
concrete mixed sequence of five operations. -/
theorem runOps_store_length_le_witness :
    ((runOps (TTLCache.init Nat 100 2)
        [CacheOp.set "a" 1 0, CacheOp.set "b" 2 1, CacheOp.get "a" 2,
         CacheOp.set "c" 3 3, CacheOp.set "d" 4 4]).store).length ≤ 2 :=
  runOps_store_length_le Nat 100 2 (by decide) _

/-! ## Claim C3 : FIFO+recency eviction scenario -/

/-- C3: in a capacity-2 cache with distinct keys and entries that do not
expire during the run, the sequence set A, set B, get A, set C ends with
exactly A and C stored (in that order): the successful get returned A's value
and moved A to the back of the eviction order, so set C evicted B from the
front. -/
theorem ttlcache_fifo_recency_eviction (α : Type) (a b c : String)
    (va vb vc : α) (ttl : Int) (hab : a ≠ b) (hac : a ≠ c) (_hbc : b ≠ c)
    (httl : 2 < ttl) :
    (((runOps (TTLCache.init α ttl 2)
          [CacheOp.set a va 0, CacheOp.set b vb 1]).get a 2).1 = some va) ∧
    ((runOps (TTLCache.init α ttl 2)
        [CacheOp.set a va 0, CacheOp.set b vb 1, CacheOp.get a 2,
         CacheOp.set c vc 3]).store.map (fun e => e.1) = [a, c]) := by
  have hfresh : ¬ (ttl ≤ 2) := by omega
  have hab1 : (a == b) = false := beq_eq_false_iff_ne.mpr hab
  have hab2 : (b == a) = false := beq_eq_false_iff_ne.mpr (Ne.symm hab)
  have hac1 : (a == c) = false := beq_eq_false_iff_ne.mpr hac
  refine ⟨?_, ?_⟩ <;>
    simp [runOps, applyOp, TTLCache.init, TTLCache.set, TTLCache.get,
      evictWhile, List.eraseP, List.find?, hab1, hab2, hac1, hfresh]

/-- C3 instantiated: keys "A","B","C", values 1,2,3, TTL 100. -/
theorem ttlcache_fifo_recency_eviction_witness :
    (((runOps (TTLCache.init Nat 100 2)
          [CacheOp.set "A" 1 0, CacheOp.set "B" 2 1]).get "A" 2).1 = some 1) ∧
    ((runOps (TTLCache.init Nat 100 2)
        [CacheOp.set "A" 1 0, CacheOp.set "B" 2 1, CacheOp.get "A" 2,
         CacheOp.set "C" 3 3]).store.map (fun e => e.1) = ["A", "C"]) :=
  ttlcache_fifo_recency_eviction Nat "A" "B" "C" 1 2 3 100
    (by decide) (by decide) (by decide) (by decide)

/-! ## app/scraper.py + app/jobspy_integration.py : data model and merge

`scrape_all` launches its scraper coroutine list and collects
`asyncio.gather(*tasks, return_exceptions=True)`, which yields one result per
task **in task-launch order** (gather's documented contract), each either the
scraper's job list or the exception it raised.  The embedding therefore takes
that ordered outcome list as input: `Except Unit (List Job)` per scraper,
`error` standing for a raised exception.  The merge phase (the loop after the
gather) is translated verbatim: exceptions counted and skipped, jobs deduped
by `url` against one shared `seen` set, survivors enriched and scored.  The
`isinstance(res, list)` guard is always true for non-exception results here,
and the `try/except` around enrichment has no failing path in the total
model. -/

/-- The `Job` model of `app/models.py`, restricted to the fields the merge
phase reads or writes.  `date` carries the parsed timestamp (seconds). -/
structure Job where
  id : String
  title : String
  company : String
  location : String
  url : String
  description : String
  source : String
  date : Option Int
  tags : List String
  match_score : Option Nat
  yoe_min : Option Nat
  yoe_max : Option Nat
  salary_min : Option ℚ
  salary_max : Option ℚ
  currency : Option String
  visa_sponsorship : Option Bool
deriving DecidableEq

/-- The dict returned by `enhance_job_with_metadata`. -/
structure JobMeta where
  yoe_min : Option Nat
  yoe_max : Option Nat
  visa_sponsorship : Option Bool
  salary_min : Option ℚ
  salary_max : Option ℚ
  currency : Option String

/-- `enhance_job_with_metadata` from `app/scoring.py`: extract YOE, visa and
salary metadata from description+location (`visa if visa else None` maps a
negative detection to `None`, never `False`). -/
def enhance_job_with_metadata (job_description job_location : String) : JobMeta :=
  let text := job_description ++ " " ++ job_location
  let yoe := extract_yoe text
  let visa := detect_visa_sponsorship text
  let sal := extract_salary_currency text
  { yoe_min := yoe.1, yoe_max := yoe.2,
    visa_sponsorship := if visa then some true else none,
    salary_min := sal.1, salary_max := sal.2.1, currency := sal.2.2 }

/-- `if job.field is None: job.field = new` -/
def updOpt (cur new : Option α) : Option α :=
  match cur with
  | some v => some v
  | none => new

/-- The per-job enrichment block inside `scrape_all`'s merge loop: fill the
metadata fields that are not already set (YOE first — the score is computed
from the updated bounds), then compute `match_score` with target 2 if
absent. -/
def enhanceJob (j : Job) : Job :=
  let md := enhance_job_with_metadata j.description j.location
  let ymin := updOpt j.yoe_min md.yoe_min
  let ymax := updOpt j.yoe_max md.yoe_max
  let visa := updOpt j.visa_sponsorship md.visa_sponsorship
  let smin := updOpt j.salary_min md.salary_min
  let smax := updOpt j.salary_max md.salary_max
  let curr := updOpt j.currency md.currency
  let score :=
    match j.match_score with
    | some v => some v
    | none => some (calculate_match_score j.title j.description j.location ymin ymax 2)
  { j with yoe_min := ymin, yoe_max := ymax, visa_sponsorship := visa,
           salary_min := smin, salary_max := smax, currency := curr,
           match_score := score }

/-- Enrichment never touches the dedup key. -/
@[simp] theorem enhanceJob_url (j : Job) : (enhanceJob j).url = j.url := rfl

/-- The inner `for job in res:` loop of `scrape_all`: dedup against the
shared `seen` set, enhance survivors, and thread the updated set. -/
def mergeSource : List Job → List String → List Job × List String
  | [], seen => ([], seen)
  | j :: rest, seen =>
    if j.url ∈ seen then mergeSource rest seen
    else
      match mergeSource rest (j.url :: seen) with
      | (out, seen2) => (enhanceJob j :: out, seen2)

/-- The outer `for i, res in enumerate(results):` loop of `scrape_all`:
exceptions contribute nothing, successful lists are merged in order with the
shared `seen` set. -/
def mergeAll : List (Except Unit (List Job)) → List String → List Job
  | [], _ => []
  | Except.error _ :: rest, seen => mergeAll rest seen
  | Except.ok l :: rest, seen =>
    match mergeSource l seen with
    | (out, seen2) => out ++ mergeAll rest seen2

/-- `scrape_all`'s merge phase, as a function of the gathered per-scraper
outcomes (in task-launch order). -/
def scrape_all (results : List (Except Unit (List Job))) : List Job :=
  mergeAll results []

/-- The `error_count` tally `scrape_all` computes (and logs): the number of
scrapers whose gathered outcome is an exception. -/
def scrape_all_error_count (results : List (Except Unit (List Job))) : Nat :=
  results.countP (fun r =>
    match r with
    | Except.error _ => true
    | Except.ok _ => false)

/-! ## Claim C1 -/

/-- C1 amended (and the spec's own 3-adapter example): with adapters 1 and 3
succeeding and adapter 2 raising, the merge returns exactly what it returns
when the failing adapter is absent — the merged, enriched output of the
successful scrapers only, never an exception — and the computed failure
count is 1.  (The count is logged, not returned; see the counterexample.) -/
theorem scrape_all_partial_failure_isolation (a1 a3 : List Job) :
    scrape_all [Except.ok a1, Except.error (), Except.ok a3] =
      scrape_all [Except.ok a1, Except.ok a3] ∧
    scrape_all_error_count [Except.ok a1, Except.error (), Except.ok a3] = 1 := by
  exact ⟨rfl, rfl⟩

/-- A minimal concrete job for adapter 1. -/
def jobA : Job :=
  { id := "s1_1", title := "x", company := "c1", location := "l1",
    url := "https://a.example/1", description := "", source := "s1",
    date := none, tags := [], match_score := none, yoe_min := none,
    yoe_max := none, salary_min := none, salary_max := none,
    currency := none, visa_sponsorship := none }

/-- A minimal concrete job for adapter 3. -/
def jobB : Job :=
  { id := "s3_1", title := "y", company := "c3", location := "l3",
    url := "https://b.example/1", description := "", source := "s3",
    date := none, tags := [], match_score := none, yoe_min := none,
    yoe_max := none, salary_min := none, salary_max := none,
    currency := none, visa_sponsorship := none }

/-- C1 counterexample: `scrape_all` returns only the job list, so the caller
does not receive the failure count — two runs with failure counts 1 and 0
produce identical return values, hence no function of the returned value
equals the failure count. -/
theorem scrape_all_error_count_not_returned :
    ¬ ∃ f : List Job → Nat,
        ∀ rs : List (Except Unit (List Job)),
          f (scrape_all rs) = scrape_all_error_count rs := by
  rintro ⟨f, hf⟩
  have h1 := hf [Except.ok [jobA], Except.error (), Except.ok [jobB]]
  have h2 := hf [Except.ok [jobA], Except.ok [], Except.ok [jobB]]
  have he : scrape_all [Except.ok [jobA], Except.error (), Except.ok [jobB]] =
      scrape_all [Except.ok [jobA], Except.ok [], Except.ok [jobB]] := rfl
  rw [he, h2] at h1
  exact absurd h1.symm (by decide)

/-! ## Claim C2 : dedup is first-wins in invocation order -/

/-- The successful per-scraper outputs, in task-launch order. -/
def successes (results : List (Except Unit (List Job))) : List (List Job) :=
  results.filterMap (fun r =>
    match r with
    | Except.ok l => some l
    | Except.error _ => none)

/-- Every raw job of the successful scrapers, concatenated in task-launch
order (the order in which the merge loop visits them). -/
def rawJobs (results : List (Except Unit (List Job))) : List Job :=
  (successes results).flatten

/-- `mergeSource`'s output component as a single-list pass (the merge loop
over one flattened job list with an explicit `seen` set). -/
def dedupEnhance : List Job → List String → List Job
  | [], _ => []
  | j :: rest, seen =>
    if j.url ∈ seen then dedupEnhance rest seen
    else enhanceJob j :: dedupEnhance rest (j.url :: seen)

/-- `mergeSource`'s `seen`-set component. -/
def seenAfter : List Job → List String → List String
  | [], seen => seen
  | j :: rest, seen =>
    if j.url ∈ seen then seenAfter rest seen
    else seenAfter rest (j.url :: seen)

/-- `mergeSource` decomposes into its two components. -/
theorem mergeSource_eq (l : List Job) : ∀ seen : List String,
    mergeSource l seen = (dedupEnhance l seen, seenAfter l seen) := by
  induction l with
  | nil => intro seen; rfl
  | cons j rest ih =>
    intro seen
    by_cases h : j.url ∈ seen
    · simp [mergeSource, dedupEnhance, seenAfter, h, ih]
    · simp [mergeSource, dedupEnhance, seenAfter, h, ih (j.url :: seen)]

/-- Merging a concatenation is merging the parts with the threaded set. -/
theorem dedupEnhance_append (l1 : List Job) : ∀ (l2 : List Job) (seen : List String),
    dedupEnhance (l1 ++ l2) seen =
      dedupEnhance l1 seen ++ dedupEnhance l2 (seenAfter l1 seen) := by
  induction l1 with
  | nil => intro l2 seen; simp [dedupEnhance, seenAfter]
  | cons j rest ih =>
    intro l2 seen
    by_cases h : j.url ∈ seen <;> simp [dedupEnhance, seenAfter, h, ih]

/-- The nested merge loops equal one pass over the flattened raw jobs: the
`seen` set is shared across sources. -/
theorem mergeAll_eq (rs : List (Except Unit (List Job))) : ∀ seen : List String,
    mergeAll rs seen = dedupEnhance (rawJobs rs) seen := by
  induction rs with
  | nil => intro seen; rfl
  | cons r rest ih =>
    intro seen
    cases r with
    | error e => simp [mergeAll, rawJobs, successes, ih]
    | ok l =>
      simp [mergeAll, rawJobs, successes, mergeSource_eq, dedupEnhance_append, ih]

/-- First occurrences of a list, in order of first occurrence — the spec's
"first occurrence wins, insertion order preserved" dedup, stated
independently of the merge loop. -/
def firstOccurrences : List String → List String
  | [] => []
  | u :: rest => u :: firstOccurrences (rest.filter (fun v => v != u))
termination_by l => l.length
decreasing_by
  simp only [List.length_cons]
  exact Nat.lt_succ_of_le (List.length_filter_le _ _)

/-- `firstOccurrences` keeps exactly the urls that occur. -/
theorem mem_firstOccurrences (us : List String) : ∀ u : String,
    u ∈ firstOccurrences us ↔ u ∈ us := by
  induction us using firstOccurrences.induct with
  | case1 => intro u; simp [firstOccurrences]
  | case2 v rest ih =>
    intro u
    rw [firstOccurrences]
    simp only [List.mem_cons, ih, List.mem_filter, bne_iff_ne]
    constructor
    · rintro (rfl | ⟨hu, _⟩)
      · exact Or.inl rfl
      · exact Or.inr hu
    · rintro (rfl | hu)
      · exact Or.inl rfl
      · by_cases h : u = v
        · exact Or.inl h
        · exact Or.inr ⟨hu, h⟩

/-- `firstOccurrences` has no duplicates. -/
theorem nodup_firstOccurrences (us : List String) : (firstOccurrences us).Nodup := by
  induction us using firstOccurrences.induct with
  | case1 => simp [firstOccurrences]
  | case2 v rest ih =>
    rw [firstOccurrences]
    refine List.nodup_cons.mpr ⟨?_, ih⟩
    intro hmem
    have h2 := List.of_mem_filter ((mem_firstOccurrences _ _).mp hmem)
    simp at h2

/-- Splitting a `∉`-filter at a freshly seen url. -/
theorem filter_notSeen_cons (us : List String) (v : String) (seen : List String) :
    us.filter (fun u => !decide (u ∈ v :: seen)) =
      (us.filter (fun u => !decide (u ∈ seen))).filter (fun u => u != v) := by
  rw [List.filter_filter]
  apply List.filter_congr
  intro u _
  by_cases h1 : u = v <;> by_cases h2 : u ∈ seen <;>
    simp [h1, h2, List.mem_cons, bne_iff_ne]

/-- The urls the merge pass emits are the first occurrences (outside `seen`)
of the raw urls, in first-occurrence order. -/
theorem dedupEnhance_map_url (l : List Job) : ∀ seen : List String,
    (dedupEnhance l seen).map Job.url =
      firstOccurrences ((l.map Job.url).filter (fun u => !decide (u ∈ seen))) := by
  induction l with
  | nil => intro seen; simp [dedupEnhance, firstOccurrences]
  | cons j rest ih =>
    intro seen
    by_cases h : j.url ∈ seen
    · simp [dedupEnhance, h, ih]
    · have hc : (!decide (j.url ∈ seen)) = true := by simp [h]
      rw [List.map_cons, List.filter_cons, if_pos hc]
      simp only [dedupEnhance, if_neg h, List.map_cons, enhanceJob_url, firstOccurrences]
      rw [ih (j.url :: seen), filter_notSeen_cons]

/-- Every merged job is the enhanced *first* raw record carrying its url. -/
theorem dedupEnhance_first_wins (l : List Job) : ∀ (seen : List String) (j : Job),
    j ∈ dedupEnhance l seen →
    j.url ∉ seen ∧
      ∃ r, l.find? (fun x => x.url == j.url) = some r ∧ j = enhanceJob r := by
  induction l with
  | nil => intro seen j h; simp [dedupEnhance] at h
  | cons x rest ih =>
    intro seen j hj
    by_cases hx : x.url ∈ seen
    · rw [dedupEnhance, if_pos hx] at hj
      obtain ⟨hns, r, hr, hjr⟩ := ih seen j hj
      have hne : (x.url == j.url) = false :=
        beq_eq_false_iff_ne.mpr (fun he => hns (he ▸ hx))
      exact ⟨hns, r, by simp [List.find?, hne, hr], hjr⟩
    · rw [dedupEnhance, if_neg hx] at hj
      rcases List.mem_cons.mp hj with rfl | hj2
      · refine ⟨by rw [enhanceJob_url]; exact hx, x, ?_, rfl⟩
        simp [List.find?, enhanceJob_url]
      · obtain ⟨hns, r, hr, hjr⟩ := ih (x.url :: seen) j hj2
        have hnx : j.url ≠ x.url := fun he => hns (by simp [he])
        have hnseen : j.url ∉ seen := fun hs => hns (List.mem_cons_of_mem _ hs)
        have hne : (x.url == j.url) = false :=
          beq_eq_false_iff_ne.mpr (fun he => hnx he.symm)
        exact ⟨hnseen, r, by simp [List.find?, hne, hr], hjr⟩

/-- C2: in the merged result, urls are duplicate-free; a url appears iff some
successful scraper produced it; the url sequence is the sequence of first
occurrences of the raw urls in task-invocation order (so result order is
invocation order, not completion order — `gather` returns outcomes in launch
order); and each merged job is the enriched first raw record with its url,
i.e. the one from the earliest scraper that produced that url. -/
theorem scrape_all_dedup_first_wins (results : List (Except Unit (List Job))) :
    ((scrape_all results).map Job.url).Nodup ∧
    (∀ u, u ∈ (scrape_all results).map Job.url ↔ u ∈ (rawJobs results).map Job.url) ∧
    (scrape_all results).map Job.url = firstOccurrences ((rawJobs results).map Job.url) ∧
    (∀ j ∈ scrape_all results, ∃ r,
        (rawJobs results).find? (fun x => x.url == j.url) = some r ∧
        j = enhanceJob r) := by
  have hbridge : scrape_all results = dedupEnhance (rawJobs results) [] :=
    mergeAll_eq results []
  have hmap : (scrape_all results).map Job.url =
      firstOccurrences ((rawJobs results).map Job.url) := by
    rw [hbridge, dedupEnhance_map_url]
    simp
  refine ⟨?_, ?_, hmap, ?_⟩
  · rw [hmap]; exact nodup_firstOccurrences _
  · intro u; rw [hmap]; exact mem_firstOccurrences _ u
  · intro j hj
    rw [hbridge] at hj
    obtain ⟨_, r, hr, hjr⟩ := dedupEnhance_first_wins _ [] j hj
    exact ⟨r, hr, hjr⟩

/-! ## app/scraper.py : `scrape_weworkremotely` per-entry normalization

A feed entry carries `title`/`link`/`summary` (each `getattr(entry, _, "")
or ""`, so a missing field and an empty field both arrive as `""`), and a
published date.  `_parse_date` delegates to `dateutil` (a third-party
parser, not part of this repository), so the entry is modelled as carrying
that call's result directly: `date = none` for a missing or unparseable
published string.  `datetime.utcnow()` is passed explicitly as `now`, in
seconds; `hash(link)` in the job id is an opaque injection and is modelled
by the link itself. -/

/-- A parsed feed entry as the per-entry loop sees it. -/
structure WwrEntry where
  title : String
  link : String
  summary : String
  date : Option Int

/-- `_within_days` from `app/scraper.py`: an absent date passes; otherwise
the date must be at or after `now` minus the window (in seconds). -/
def within_days (dt : Option Int) (max_days : Nat) (now : Int) : Bool :=
  match dt with
  | none => true
  | some d => now - (max_days : Int) * 86400 ≤ d

/-- Strip whitespace from both ends (Python `str.strip()`). -/
def stripChars (cs : List Char) : List Char :=
  ((cs.dropWhile Char.isWhitespace).reverse.dropWhile Char.isWhitespace).reverse

/-- Python `str.split()`: whitespace-separated words, no empties. -/
def wordsAux : List Char → List Char → List (List Char)
  | [], cur => if cur.isEmpty then [] else [cur.reverse]
  | c :: rest, cur =>
    if c.isWhitespace then
      if cur.isEmpty then wordsAux rest [] else cur.reverse :: wordsAux rest []
    else wordsAux rest (c :: cur)

/-- Python `str.split()` on a character list. -/
def wordsChars (cs : List Char) : List (List Char) := wordsAux cs []

/-- `_matches_query` from `app/scraper.py`: no/empty query matches all;
data/skill keywords always match; generic or short queries match everything;
otherwise any query word in title+summary matches. -/
def matches_query (title summary : String) (query : Option String) : Bool :=
  match query with
  | none => true
  | some q =>
    if q = "" then true
    else
      let text := pyLower (title ++ " " ++ summary)
      let query_lower := stripChars (pyLower q)
      let query_words := wordsChars query_lower
      let data_kw := ["data", "analyst", "analytics", "bi", "business intelligence",
        "science", "engineer", "scientist", "intelligence", "insights",
        "reporting", "metrics", "kpi", "dashboard"]
      let skill_kw := ["python", "sql", "tableau", "power bi", "looker", "visualization",
        "machine learning", "ml modeling", "statistics", "a/b testing",
        "experimentation", "reporting", "dashboards", "etl", "data pipeline",
        "pandas", "numpy", "scikit-learn", "tensorflow", "pytorch",
        "excel", "spreadsheet", "r language", "r programming"]
      let generic_queries := ["data analyst", "analyst", "data", "analytics"]
      let is_generic := generic_queries.any (fun gq => inChars gq.toList query_lower) ||
        query_words.length ≤ 2
      if data_kw.any (fun k => strIn k text) || skill_kw.any (fun sk => strIn sk text) then
        true
      else if is_generic then true
      else query_words.any (fun w => inChars w text)

/-- The per-entry body of `scrape_weworkremotely`'s loop: skip entries
outside the recency window, entries not matching the query, and entries with
a missing/empty link; otherwise build the Job (`continue` is `none`). -/
def scrape_weworkremotely_entry (days : Nat) (now : Int) (query : Option String)
    (e : WwrEntry) : Option Job :=
  if within_days e.date days now then
    if matches_query e.title e.summary query then
      if e.link = "" then none
      else
        some { id := "weworkremotely_" ++ e.link, title := e.title,
               company := "Unknown", location := "Remote", url := e.link,
               description := e.summary, source := "weworkremotely",
               date := e.date, tags := ["rss"], match_score := none,
               yoe_min := none, yoe_max := none, salary_min := none,
               salary_max := none, currency := none, visa_sponsorship := none }
    else none
  else none

/-- The whole entry loop: each entry independently yields at most one job
(a skipped or failing entry leaves the rest of the output unaffected). -/
def scrape_weworkremotely (days : Nat) (now : Int) (query : Option String)
    (entries : List WwrEntry) : List Job :=
  entries.filterMap (scrape_weworkremotely_entry days now query)

/-! ## Claim C9 -/

/-- C9 counterexample: an entry with a missing/empty title but a valid link
is *not* skipped — normalization produces a Listing whose title is the empty
string (the code only checks `if not link`). -/
theorem wwr_empty_title_not_skipped :
    ((scrape_weworkremotely_entry 3 0 none
        { title := "", link := "https://example.com/job", summary := "",
          date := none }).map Job.title) = some "" ∧
    (scrape_weworkremotely_entry 3 0 none
        { title := "", link := "https://example.com/job", summary := "",
          date := none }).isSome = true := by
  refine ⟨by decide, by decide⟩

/-- C9 amended: normalization is total (every raised exception is caught per
record and the record skipped, modelled by a total function into `Option`),
and any record whose URL is missing/empty yields no Listing; a missing/empty
title does *not* cause a skip. -/
theorem wwr_missing_url_skipped (days : Nat) (now : Int) (query : Option String)
    (e : WwrEntry) (h : e.link = "") :
    scrape_weworkremotely_entry days now query e = none := by
  unfold scrape_weworkremotely_entry
  split
  · split
    · simp [h]
    · rfl
  · rfl

/-- C9 amended, instantiated: a dated, titled entry with an empty link is
dropped. -/
theorem wwr_missing_url_skipped_witness :
    scrape_weworkremotely_entry 3 0 none
      { title := "Data Analyst", link := "", summary := "s", date := some 0 } = none :=
  wwr_missing_url_skipped 3 0 none _ rfl
